import Mathlib

/-
Verification of the Blockchain core of ganache-core (Tenderly fork).

This file gives a shallow embedding, in Lean 4, of the parts of the
repository that the specification's claims are about:

* `Executor.execute`            (src/unnamed/part_001)
* `Blockchain.setTime` / `increaseTime` / `currentTime`
* `Blockchain.stop`             (lifecycle handling, bit-flag states)
* the instamine `drain` handler
* `Blockchain.queueTransaction`
* `Blockchain.snapshot` / `Blockchain.revert` / `deleteBlockData`
* the `miner.on("block")` commit handler
* `Blockchain2.*`: the second copy of the blockchain found at
  src/src/chains/ethereum/src/blockchain.ts (used for the
  behavioural-equivalence claim about `revert`).

Hashes, state roots and transaction hashes are abstracted as natural
numbers; the header-hash function (keccak over the RLP encoding in the
source) is an explicit parameter `h : BlockHeader → Nat` of every
operation that calls `header.hash()`.  Machine-level concerns (buffers,
RLP) are abstracted away; control flow, field updates and the database
operations issued are translated one-for-one from the source.

The `Database`, `BlockManager` and `Manager` classes are not part of the
given sources; following the specification ("blocks: key = block number
... and key = block hash", "deletions happen in one batch per walked
block", missed keys "return not-found") the block keyspace is modelled
as an association list keyed by either a number key or a hash key, a
batch applies its operations at the point of the call (batches are
atomic and the embedding is sequential), and a `get` of a deleted key
returns `none`.
-/

/-! ## JavaScript values (for the Executor's untrusted input) -/

/-- A minimal model of the JavaScript values that can reach
`Executor.execute` as a method name or parameter: a string, a number, or
anything else. -/
inductive JsValue where
  | str (s : String)
  | num (n : Int)
  | other
deriving DecidableEq, Repr

/-- String coercion used by the template literal
`Invalid or unsupported method: ${methodName}` in the source. -/
def jsDisplay : JsValue → String
  | JsValue.str s => s
  | JsValue.num n => toString n
  | JsValue.other => "[object Object]"

namespace Executor

/-- A property slot of a ledger object: either a callable (a function
from the positional parameters to a result) or a non-callable value. -/
inductive LedgerProp where
  | func (f : List JsValue → JsValue)
  | value (v : JsValue)

/-- A ledger as seen by the Executor: the own properties of its
prototype (`ledger.__proto__`, the declared method set) and the own
properties of the instance itself (property lookup `ledger[name]`
consults these first). -/
structure Ledger where
  proto : List (String × LedgerProp)
  own : List (String × LedgerProp)

/-- The check `ledger.__proto__.hasOwnProperty(methodName)` from the
source: does the prototype itself declare the property? -/
def protoHasOwn (L : Ledger) (s : String) : Bool :=
  (List.lookup s L.proto).isSome

/-- JavaScript property lookup `ledger[methodName]`: own properties of
the instance shadow the prototype's. -/
def lookupProp (L : Ledger) (s : String) : Option LedgerProp :=
  match List.lookup s L.own with
  | some v => some v
  | none => List.lookup s L.proto

/-- Embedding of `Executor.execute` (src/unnamed/part_001, lines 18-34):
accept the call only when the method name is a string, is not
`"constructor"`, is an own property of the ledger's prototype, and
resolves to a callable; otherwise throw
`Invalid or unsupported method: <name>`. -/
def execute (L : Ledger) (methodName : JsValue) (params : List JsValue) :
    Except String JsValue :=
  match methodName with
  | JsValue.str s =>
    if (s != "constructor") && protoHasOwn L s then
      match lookupProp L s with
      | some (LedgerProp.func f) => Except.ok (f params)
      | _ => Except.error ("Invalid or unsupported method: " ++ s)
    else
      Except.error ("Invalid or unsupported method: " ++ s)
  | mn => Except.error ("Invalid or unsupported method: " ++ jsDisplay mn)

/-- The success condition of the Executor contract, as the specification
states it: the name is a string, not `"constructor"`, an own property of
the declared method set, and resolves to a callable. -/
def validCall (L : Ledger) (mn : JsValue) : Prop :=
  ∃ s f, mn = JsValue.str s ∧ s ≠ "constructor" ∧ protoHasOwn L s = true ∧
    lookupProp L s = some (LedgerProp.func f)

end Executor

/-! ## Time control -/

namespace Blockchain

/-- Embedding of `setTime` (src/unnamed/part_000, lines 353-355):
`Math.floor((timestamp - Date.now()) / 1000)`.  Both arguments are in
milliseconds; `Int.fdiv` is floor division, matching `Math.floor` of the
real-valued quotient. -/
def setTime (now timestamp : Int) : Int :=
  Int.fdiv (timestamp - now) 1000

/-- Embedding of `increaseTime` (src/unnamed/part_000, lines 346-351):
negative arguments are clamped to zero before being added to the
current adjustment. -/
def increaseTime (timeAdjustment : Int) (seconds : Int) : Int :=
  timeAdjustment + (if seconds < 0 then 0 else seconds)

/-- Embedding of `#currentTime` (src/unnamed/part_000, lines 342-344):
`Math.floor(Date.now() / 1000) + timeAdjustment`. -/
def currentTime (nowMs : Int) (timeAdjustment : Int) : Int :=
  Int.fdiv nowMs 1000 + timeAdjustment

/-! ## Lifecycle: the `Status` bit flags and `stop()` -/

/-- Bit-flag lifecycle states (src/unnamed/part_000, lines 36-43). -/
def Status.started : Nat := 1

def Status.starting : Nat := 2

def Status.stopped : Nat := 4

def Status.stopping : Nat := 8

def Status.paused : Nat := 16

/-- Embedding of `stop` (src/unnamed/part_000, lines 519-535).  When the
state is exactly `starting` the method first awaits the `start` event
(after which the state is `started`, per the start-up sequence); then,
only when the state is exactly `started`, it transitions through
`stopping`, closes the database, and sets `stopped`.  It always emits
`stop`.  The result is the final state paired with whether `stop` was
emitted. -/
def stop (state : Nat) : Nat × Bool :=
  let afterStartWait := if state = Status.starting then Status.started else state
  if afterStartWait = Status.started then (Status.stopped, true)
  else (afterStartWait, true)

/-! ## The instamine `drain` handler -/

/-- What the instamine `drain` listener returns: either an immediate
call `mine(maxTransactions)`, or (while paused) the shared
`waitingOnResume` promise, identified by a token. -/
inductive DrainAction where
  | mineNow (maxTransactions : Int)
  | waitOnResume (id : Nat)
deriving DecidableEq, Repr

/-- Embedding of the instamine `transactionPool.on("drain")` listener
(src/unnamed/part_000, lines 136-149).  `waitingOnResume` is the
captured promise (if any); `freshId` identifies the promise a call would
newly create.  Returns the action taken and the updated
`waitingOnResume` slot. -/
def drainHandler (paused : Bool) (waitingOnResume : Option Nat) (freshId : Nat) :
    DrainAction × Option Nat :=
  if paused then
    match waitingOnResume with
    | some id => (DrainAction.waitOnResume id, some id)
    | none => (DrainAction.waitOnResume freshId, some freshId)
  else
    (DrainAction.mineNow 1, waitingOnResume)

/-- Embedding of the continuation attached to the `resume` event by the
drain listener (src/unnamed/part_000, lines 141-146): clear
`waitingOnResume` and call `mine(-1)`. -/
def onResumeFired (_waitingOnResume : Option Nat) : DrainAction × Option Nat :=
  (DrainAction.mineNow (-1), none)

/-! ## queueTransaction -/

/-- The configuration bits `queueTransaction` consults. -/
structure QueueCtx where
  paused : Bool
  instamine : Bool
  legacyInstamine : Bool
  vmErrorsOnRPCResponse : Bool
deriving DecidableEq, Repr

/-- Outcome of the `Promise.race` between `transaction:<hash>` (emitted
with no payload, hence falsy) and `transaction-failure:<hash>` (emitted
with the failure error). -/
inductive RaceOutcome where
  | completed
  | failed (err : String)
deriving DecidableEq, Repr

/-- A VM error as thrown by `queueTransaction`: the raced error,
optionally carrying the transaction hash in its `result` field. -/
structure VmThrown where
  err : String
  result : Option Nat
deriving DecidableEq, Repr

/-- Errors `queueTransaction` can throw: a pool rejection propagated
from `transactions.push`, or a raced VM failure. -/
inductive QtError where
  | pool (msg : String)
  | vm (e : VmThrown)
deriving DecidableEq, Repr

/-- Embedding of `queueTransaction` (src/unnamed/part_000, lines
457-484).  `pushOutcome` is the awaited result of
`transactions.push` (`Except`: the pool may throw; `Bool`: accepted or
not), `txHash` the hash read after the push, `race` the environment's
outcome of the legacy-instamine race.  Returns the hash paired with
whether `pendingTransaction` was emitted, or the thrown error. -/
def queueTransaction (ctx : QueueCtx) (pushOutcome : Except String Bool)
    (txHash : Nat) (race : RaceOutcome) : Except QtError (Nat × Bool) :=
  match pushOutcome with
  | Except.error m => Except.error (QtError.pool m)
  | Except.ok accepted =>
    if ctx.paused || !ctx.instamine then
      Except.ok (txHash, accepted)
    else
      if ctx.instamine && ctx.legacyInstamine then
        match race with
        | RaceOutcome.completed => Except.ok (txHash, accepted)
        | RaceOutcome.failed e =>
          Except.error (QtError.vm
            { err := e
              result := if ctx.vmErrorsOnRPCResponse then some txHash else none })
      else
        Except.ok (txHash, accepted)

end Blockchain

/-! ## The chain data model -/

/-- A transaction as the snapshot/revert and commit paths see it: its
hash and the (hashes of the) logs it produced. -/
structure Tx where
  hash : Nat
  logs : List Nat
deriving DecidableEq, Repr

/-- A block header with the fields the core reads and writes.  Hashes
and roots are abstract digests (`Nat`); the header's own hash is
computed by the explicit parameter `h : BlockHeader → Nat` wherever the
source calls `header.hash()`. -/
structure BlockHeader where
  parentHash : Nat
  number : Nat
  coinbase : Nat
  timestamp : Int
  gasLimit : Nat
  gasUsed : Nat
  stateRoot : Nat
  transactionsTrie : Nat
  receiptTrie : Nat
deriving DecidableEq, Repr

/-- A block: header plus transactions. -/
structure Block where
  header : BlockHeader
  transactions : List Tx
deriving DecidableEq, Repr

/-- A key of the `blocks` keyspace.  Modelled from the spec: the
`BlockManager` (not among the given sources) stores each block both
under its (big-endian) number and under its hash; both kinds of key
live in the one keyspace that `blocks.get` / `blocks.getByHash` /
`blocks.del` operate on. -/
inductive BlockKey where
  | num (n : Nat)
  | hash (h : Nat)
deriving DecidableEq, Repr

/-- The `blocks` keyspace as an association list. -/
def BlockStore : Type := List (BlockKey × Block)

instance : DecidableEq BlockStore := by
  unfold BlockStore
  infer_instance

instance : Repr BlockStore := by
  unfold BlockStore
  infer_instance

/-- Modelled from the spec: `BlockManager` lookup; a missing key is
"not found" (`none`). -/
def lookupBlock (k : BlockKey) : BlockStore → Option Block
  | [] => none
  | (k2, b) :: rest => if k2 = k then some b else lookupBlock k rest

/-- Modelled from the spec: `BlockManager.del` removes every binding of
the key from the keyspace. -/
def delBlock (k : BlockKey) (s : BlockStore) : BlockStore :=
  s.filter (fun kv => kv.1 ≠ k)

/-- Modelled from the spec: `BlockManager.putBlock` stores the block
under its number key and under its hash key. -/
def putBlock (h : BlockHeader → Nat) (b : Block) (s : BlockStore) : BlockStore :=
  (BlockKey.num b.header.number, b) :: (BlockKey.hash (h b.header), b) :: s

/-- A snapshot record (src/unnamed/part_000, lines 368-372): the latest
header's hash, its state root, and the time adjustment at snapshot
time. -/
structure Snapshot where
  hash : Nat
  stateRoot : Nat
  timeAdjustment : Int
deriving DecidableEq, Repr

/-- The blockchain state that the snapshot/revert and commit paths
touch: the `blocks` keyspace, the cached `latest` block (`none` models
the JavaScript `null`), the snapshot stack, the time adjustment, and
the state manager's current root. -/
structure ChainState where
  blocks : BlockStore
  latest : Option Block
  snapshots : List Snapshot
  timeAdjustment : Int
  stateRoot : Nat
deriving DecidableEq, Repr

/-- A single database deletion issued by `#deleteBlockData`. -/
inductive DelOp where
  | blockByNumber (n : Nat)
  | blockByHash (h : Nat)
  | transactionRecord (txHash : Nat)
  | receiptRecord (txHash : Nat)
deriving DecidableEq, Repr

/-- The result of a successful `revert`: the returned boolean, the
updated chain state, and the deletion batches issued (one batch per
walked block, in order). -/
structure RevertResult where
  result : Bool
  state : ChainState
  deletions : List (List DelOp)
deriving DecidableEq, Repr

namespace Blockchain

/-- Embedding of `snapshot` (src/unnamed/part_000, lines 360-373): read
the latest block's header, push `{hash, stateRoot, timeAdjustment}`
onto the snapshot stack, and return the result of `Array.push` — the
new length of the stack.  Reading `latest` when it is `null` is a
JavaScript `TypeError`. -/
def snapshot (h : BlockHeader → Nat) (st : ChainState) :
    Except String (Nat × ChainState) :=
  match st.latest with
  | none => Except.error "TypeError: latest is null"
  | some latestBlock =>
    let currentBlockHeader := latestBlock.header
    let snap : Snapshot :=
      { hash := h currentBlockHeader
        stateRoot := currentBlockHeader.stateRoot
        timeAdjustment := st.timeAdjustment }
    let snapshots := st.snapshots ++ [snap]
    Except.ok (snapshots.length, { st with snapshots := snapshots })

/-- Embedding of `#deleteBlockData` (src/unnamed/part_000, lines
375-386): in one batch, delete the block by number, by hash, and each
of its transactions' transaction and receipt records.  Returns the
updated `blocks` keyspace and the deletions issued (transaction and
receipt deletions touch their own keyspaces and are recorded in the
batch only). -/
def deleteBlockData (h : BlockHeader → Nat) (block : Block) (blocks : BlockStore) :
    BlockStore × List DelOp :=
  let blocks1 := delBlock (BlockKey.num block.header.number) blocks
  let blocks2 := delBlock (BlockKey.hash (h block.header)) blocks1
  (blocks2,
    DelOp.blockByNumber block.header.number ::
    DelOp.blockByHash (h block.header) ::
    block.transactions.flatMap
      (fun tx => [DelOp.transactionRecord tx.hash, DelOp.receiptRecord tx.hash]))

/-- Embedding of the `do ... while (nextBlock)` walk inside `revert`
(src/unnamed/part_000, lines 436-446): delete the current block's data;
stop when its parent hash equals the snapshot hash; otherwise re-fetch
by the same block number (`blocks.get(header.number)`) and continue
while that get finds a block.  The recursion is fuelled; the caller
passes more fuel than the keyspace has entries. -/
def revertLoop (h : BlockHeader → Nat) (snapshotHash : Nat) :
    Nat → Block → BlockStore → BlockStore × List (List DelOp)
  | 0, _, blocks => (blocks, [])
  | fuel + 1, nextBlock, blocks =>
    let step := deleteBlockData h nextBlock blocks
    if nextBlock.header.parentHash = snapshotHash then
      (step.1, [step.2])
    else
      match lookupBlock (BlockKey.num nextBlock.header.number) step.1 with
      | none => (step.1, [step.2])
      | some b =>
        let rest := revertLoop h snapshotHash fuel b step.1
        (rest.1, step.2 :: rest.2)

/-- Embedding of `revert` (src/unnamed/part_000, lines 387-455).
`snapshotId` is the raw value of the `Quantity` argument (`none` models
`null`/`undefined`).  Following the source: throw on a null ordinal;
return `false` when `ordinal - 1` is negative or the spliced stack has
no head; return `true` immediately when the latest hash already equals
the snapshot hash; otherwise set the state root, fetch the target block
by the snapshot hash, walk the chain deleting block data, set `latest`
to the fetched target, and restore the time adjustment. -/
def revert (h : BlockHeader → Nat) (snapshotId : Option Int) (st : ChainState) :
    Except String RevertResult :=
  match snapshotId with
  | none => Except.error "invalid snapshotId"
  | some rawValue =>
    let snapshotNumber := rawValue - 1
    if snapshotNumber < 0 then
      Except.ok { result := false, state := st, deletions := [] }
    else
      let idx := snapshotNumber.toNat
      let snapshotsToRemove := st.snapshots.drop idx
      let st1 := { st with snapshots := st.snapshots.take idx }
      match snapshotsToRemove with
      | [] => Except.ok { result := false, state := st1, deletions := [] }
      | snap :: _ =>
        match st1.latest with
        | none => Except.error "TypeError: latest is null"
        | some currentBlock =>
          let currentHash := h currentBlock.header
          if currentHash = snap.hash then
            Except.ok { result := true, state := st1, deletions := [] }
          else
            let st2 := { st1 with stateRoot := snap.stateRoot }
            let target := lookupBlock (BlockKey.hash snap.hash) st2.blocks
            let walked :=
              revertLoop h snap.hash (st2.blocks.length + 1) currentBlock st2.blocks
            Except.ok
              { result := true
                state :=
                  { st2 with
                    blocks := walked.1
                    latest := target
                    timeAdjustment := snap.timeAdjustment }
                deletions := walked.2 }

/-! ## The miner `block` commit handler -/

/-- The data the Miner emits with its `block` event. -/
structure MinerBlockData where
  timestamp : Int
  transactionsTrieRoot : Nat
  receiptTrieRoot : Nat
  gasUsed : Nat
  blockTransactions : List Tx
deriving DecidableEq, Repr

/-- The surrounding values the commit handler closes over: the
configured gas limit and coinbase, and the state trie's current root. -/
structure CommitEnv where
  gasLimit : Nat
  coinbase : Nat
  trieRoot : Nat
deriving DecidableEq, Repr

/-- A single database write issued by the commit batch. -/
inductive PutOp where
  | transactionRecord (txHash blockHash blockNumber index : Nat)
  | receiptRecord (txHash : Nat)
  | blockLogsRecord (blockNumber : Nat) (entries : List (Nat × Nat × Nat))
  | blockRecord (blockNumber blockHash : Nat)
deriving DecidableEq, Repr

/-- The block constructed by the `miner.on("block")` handler
(src/unnamed/part_000, lines 176-190): parent hash is the hash of the
previous latest header, number is the previous number plus one, the
timestamp comes from the miner's block data, the trie roots and gas
used from the miner, and the state root from the current trie. -/
def minerBlockOf (h : BlockHeader → Nat) (env : CommitEnv)
    (previousBlock : Block) (d : MinerBlockData) : Block :=
  let previousHeader := previousBlock.header
  let previousNumber := previousHeader.number
  { header :=
      { parentHash := h previousHeader
        number := previousNumber + 1
        coinbase := env.coinbase
        timestamp := d.timestamp
        gasLimit := env.gasLimit
        gasUsed := d.gasUsed
        stateRoot := env.trieRoot
        transactionsTrie := d.transactionsTrieRoot
        receiptTrie := d.receiptTrieRoot }
    transactions := d.blockTransactions }

/-- Embedding of the whole `miner.on("block")` handler
(src/unnamed/part_000, lines 174-242): build the block from the
previous latest header, optimistically set `latest`, and run the commit
batch — per transaction a transaction record (raw fields plus block
hash, block number and index) and a receipt record, then the block-logs
record (one `(index, txHash, log)` entry per log) and the block itself.
Returns the updated state and the writes issued. -/
def minerOnBlock (h : BlockHeader → Nat) (env : CommitEnv) (st : ChainState)
    (d : MinerBlockData) : Except String (ChainState × List PutOp) :=
  match st.latest with
  | none => Except.error "TypeError: latest is null"
  | some previousBlock =>
    let block := minerBlockOf h env previousBlock d
    let blockHash := h block.header
    let blockNumber := block.header.number
    let txs := d.blockTransactions.enum
    let logEntries :=
      txs.flatMap (fun it => it.2.logs.map (fun lg => (it.1, it.2.hash, lg)))
    let ops :=
      txs.flatMap (fun it =>
        [PutOp.transactionRecord it.2.hash blockHash blockNumber it.1,
         PutOp.receiptRecord it.2.hash]) ++
      [PutOp.blockLogsRecord blockNumber logEntries,
       PutOp.blockRecord blockNumber blockHash]
    Except.ok
      ({ st with blocks := putBlock h block st.blocks, latest := some block }, ops)

end Blockchain

/-
The second copy of the blockchain coordinator, from
src/src/chains/ethereum/src/blockchain.ts.  Its `snapshot`, `revert`
and `#deleteBlockData` are translated below from that file
independently of the copy above.
-/
namespace Blockchain2

/-- Embedding of `#deleteBlockData` (blockchain.ts, lines 305-316): one
batch deleting the block by number, by hash, and the transaction and
receipt record of each of its transactions. -/
def deleteBlockData (h : BlockHeader → Nat) (block : Block) (blocks : BlockStore) :
    BlockStore × List DelOp :=
  let blocks1 := delBlock (BlockKey.num block.header.number) blocks
  let blocks2 := delBlock (BlockKey.hash (h block.header)) blocks1
  (blocks2,
    DelOp.blockByNumber block.header.number ::
    DelOp.blockByHash (h block.header) ::
    block.transactions.flatMap
      (fun tx => [DelOp.transactionRecord tx.hash, DelOp.receiptRecord tx.hash]))

/-- Embedding of the `do ... while (nextBlock)` walk inside `revert`
(blockchain.ts, lines 366-376), fuelled as in the first copy. -/
def revertLoop (h : BlockHeader → Nat) (snapshotHash : Nat) :
    Nat → Block → BlockStore → BlockStore × List (List DelOp)
  | 0, _, blocks => (blocks, [])
  | fuel + 1, nextBlock, blocks =>
    let step := deleteBlockData h nextBlock blocks
    if nextBlock.header.parentHash = snapshotHash then
      (step.1, [step.2])
    else
      match lookupBlock (BlockKey.num nextBlock.header.number) step.1 with
      | none => (step.1, [step.2])
      | some b =>
        let rest := revertLoop h snapshotHash fuel b step.1
        (rest.1, step.2 :: rest.2)

/-- Embedding of `revert` (blockchain.ts, lines 317-385); the source
body is line-for-line the code also found in the first copy. -/
def revert (h : BlockHeader → Nat) (snapshotId : Option Int) (st : ChainState) :
    Except String RevertResult :=
  match snapshotId with
  | none => Except.error "invalid snapshotId"
  | some rawValue =>
    let snapshotNumber := rawValue - 1
    if snapshotNumber < 0 then
      Except.ok { result := false, state := st, deletions := [] }
    else
      let idx := snapshotNumber.toNat
      let snapshotsToRemove := st.snapshots.drop idx
      let st1 := { st with snapshots := st.snapshots.take idx }
      match snapshotsToRemove with
      | [] => Except.ok { result := false, state := st1, deletions := [] }
      | snap :: _ =>
        match st1.latest with
        | none => Except.error "TypeError: latest is null"
        | some currentBlock =>
          let currentHash := h currentBlock.header
          if currentHash = snap.hash then
            Except.ok { result := true, state := st1, deletions := [] }
          else
            let st2 := { st1 with stateRoot := snap.stateRoot }
            let target := lookupBlock (BlockKey.hash snap.hash) st2.blocks
            let walked :=
              revertLoop h snap.hash (st2.blocks.length + 1) currentBlock st2.blocks
            Except.ok
              { result := true
                state :=
                  { st2 with
                    blocks := walked.1
                    latest := target
                    timeAdjustment := snap.timeAdjustment }
                deletions := walked.2 }

/-- The block constructed by this copy's `miner.on("block")` handler
(blockchain.ts, lines 142-153): as in the first copy, except that the
timestamp is `this.#currentTime()` (passed here as `now`). -/
def minerBlockOf (h : BlockHeader → Nat) (env : Blockchain.CommitEnv) (now : Int)
    (previousBlock : Block) (d : Blockchain.MinerBlockData) : Block :=
  let previousHeader := previousBlock.header
  let previousNumber := previousHeader.number
  { header :=
      { parentHash := h previousHeader
        number := previousNumber + 1
        coinbase := env.coinbase
        timestamp := now
        gasLimit := env.gasLimit
        gasUsed := d.gasUsed
        stateRoot := env.trieRoot
        transactionsTrie := d.transactionsTrieRoot
        receiptTrie := d.receiptTrieRoot }
    transactions := d.blockTransactions }

/-- Embedding of this copy's `miner.on("block")` handler
(blockchain.ts, lines 137-178): per transaction a transaction record
and a receipt record, then the block itself (this copy keeps no
block-logs manager). -/
def minerOnBlock (h : BlockHeader → Nat) (env : Blockchain.CommitEnv) (now : Int)
    (st : ChainState) (d : Blockchain.MinerBlockData) :
    Except String (ChainState × List Blockchain.PutOp) :=
  match st.latest with
  | none => Except.error "TypeError: latest is null"
  | some previousBlock =>
    let block := minerBlockOf h env now previousBlock d
    let blockHash := h block.header
    let blockNumber := block.header.number
    let txs := d.blockTransactions.enum
    let ops :=
      txs.flatMap (fun it =>
        [Blockchain.PutOp.transactionRecord it.2.hash blockHash blockNumber it.1,
         Blockchain.PutOp.receiptRecord it.2.hash]) ++
      [Blockchain.PutOp.blockRecord blockNumber blockHash]
    Except.ok
      ({ st with blocks := putBlock h block st.blocks, latest := some block }, ops)

end Blockchain2

/-- Projection of a revert outcome to the returned boolean and the
resulting time adjustment (used to state concrete evaluations). -/
def revertView (e : Except String RevertResult) : Option (Bool × Int) :=
  match e with
  | Except.ok r => some (r.result, r.state.timeAdjustment)
  | Except.error _ => none

/-! ## Concrete fixtures used to evaluate the model -/

namespace Fixtures

/-- A concrete header-hash function for evaluation: the block number
(collision-free on a linear chain). -/
def hC (hd : BlockHeader) : Nat := hd.number

/-- A genesis-like block; `hC` hashes it to `0`. -/
def block0 : Block :=
  { header := { parentHash := 0, number := 0, coinbase := 0, timestamp := 0,
                gasLimit := 6, gasUsed := 0, stateRoot := 7,
                transactionsTrie := 0, receiptTrie := 0 }
    transactions := [] }

/-- A revert target block at number 2; `hC` hashes it to `2`. -/
def blockT : Block :=
  { header := { parentHash := 1, number := 2, coinbase := 0, timestamp := 0,
                gasLimit := 6, gasUsed := 0, stateRoot := 9,
                transactionsTrie := 0, receiptTrie := 0 }
    transactions := [] }

/-- A chain tip at number 3 whose parent is `blockT`. -/
def blockA : Block :=
  { header := { parentHash := 2, number := 3, coinbase := 0, timestamp := 0,
                gasLimit := 6, gasUsed := 1, stateRoot := 11,
                transactionsTrie := 0, receiptTrie := 0 }
    transactions := [{ hash := 77, logs := [5] }] }

/-- A started chain holding only the genesis-like block. -/
def stW : ChainState :=
  { blocks := [(BlockKey.num 0, block0), (BlockKey.hash 0, block0)]
    latest := some block0
    snapshots := []
    timeAdjustment := 5
    stateRoot := 7 }

/-- A chain of two blocks with one snapshot taken at `blockT`
(hash `2`, state root `9`, time adjustment `1`), mined past it, and
with the time adjustment since changed to `5`. -/
def stRevert : ChainState :=
  { blocks := [(BlockKey.num 3, blockA), (BlockKey.hash 3, blockA),
               (BlockKey.num 2, blockT), (BlockKey.hash 2, blockT)]
    latest := some blockA
    snapshots := [{ hash := 2, stateRoot := 9, timeAdjustment := 1 }]
    timeAdjustment := 5
    stateRoot := 11 }

/-- A chain whose snapshot was taken at the current latest block
(hash `0`) with time adjustment `3`, after which only the time
adjustment changed (now `5`). -/
def stCex : ChainState :=
  { blocks := [(BlockKey.num 0, block0), (BlockKey.hash 0, block0)]
    latest := some block0
    snapshots := [{ hash := 0, stateRoot := 7, timeAdjustment := 3 }]
    timeAdjustment := 5
    stateRoot := 7 }

/-- A concrete ledger method. -/
def fnFoo : List JsValue → JsValue := fun _ => JsValue.num 42

/-- A concrete ledger: prototype declares a callable `foo` and a
non-callable `bar`. -/
def ledgerC : Executor.Ledger :=
  { proto := [("foo", Executor.LedgerProp.func fnFoo),
              ("bar", Executor.LedgerProp.value JsValue.other)]
    own := [] }

/-- Legacy-instamine configuration with `vmErrorsOnRPCResponse` set. -/
def ctxLegacy : Blockchain.QueueCtx :=
  { paused := false, instamine := true, legacyInstamine := true,
    vmErrorsOnRPCResponse := true }

/-- A concrete commit environment. -/
def envC : Blockchain.CommitEnv := { gasLimit := 6, coinbase := 4, trieRoot := 13 }

/-- Concrete miner block data with one transaction. -/
def mbd : Blockchain.MinerBlockData :=
  { timestamp := 10, transactionsTrieRoot := 21, receiptTrieRoot := 22, gasUsed := 3,
    blockTransactions := [{ hash := 77, logs := [5] }] }

end Fixtures

/-! ## C4 — the Executor dispatch contract -/

/-- C4: `Executor.execute` invokes the ledger method and returns its
result exactly when the method name is a string, is not
`"constructor"`, is an own property of the ledger's declared method
set, and resolves to a callable; in every other case it throws
`Invalid or unsupported method: <name>`. -/
theorem executor_execute_contract (L : Executor.Ledger) (mn : JsValue)
    (ps : List JsValue) :
    (∀ s f, mn = JsValue.str s → s ≠ "constructor" →
      Executor.protoHasOwn L s = true →
      Executor.lookupProp L s = some (Executor.LedgerProp.func f) →
      Executor.execute L mn ps = Except.ok (f ps)) ∧
    (¬ Executor.validCall L mn →
      Executor.execute L mn ps =
        Except.error ("Invalid or unsupported method: " ++ jsDisplay mn)) ∧
    ((∃ v, Executor.execute L mn ps = Except.ok v) ↔ Executor.validCall L mn) := by
  refine ⟨?_, ?_, ?_⟩
  · intro s f hm hs hown hfn
    subst hm
    show (if (s != "constructor") && Executor.protoHasOwn L s then _ else _) = _
    rw [if_pos (by simp [hs, hown]), hfn]
  · intro hnv
    cases mn with
    | str s =>
      show (if (s != "constructor") && Executor.protoHasOwn L s then _ else _) = _
      by_cases hcons : s = "constructor"
      · rw [if_neg (by simp [hcons])]
        rfl
      · by_cases hown : Executor.protoHasOwn L s = true
        · rw [if_pos (by simp [hcons, hown])]
          cases hfn : Executor.lookupProp L s with
          | none => rfl
          | some p =>
            cases p with
            | func f => exact absurd ⟨s, f, rfl, hcons, hown, hfn⟩ hnv
            | value v => rfl
        · rw [if_neg (by simp [hown])]
          rfl
    | num n => rfl
    | other => rfl
  · constructor
    · rintro ⟨v, hv⟩
      cases mn with
      | str s =>
        rw [show Executor.execute L (JsValue.str s) ps =
              (if (s != "constructor") && Executor.protoHasOwn L s then
                match Executor.lookupProp L s with
                | some (Executor.LedgerProp.func f) => Except.ok (f ps)
                | _ => Except.error ("Invalid or unsupported method: " ++ s)
              else Except.error ("Invalid or unsupported method: " ++ s))
            from rfl] at hv
        by_cases hcons : s = "constructor"
        · rw [if_neg (by simp [hcons])] at hv
          exact absurd hv (by simp)
        · by_cases hown : Executor.protoHasOwn L s = true
          · rw [if_pos (by simp [hcons, hown])] at hv
            cases hfn : Executor.lookupProp L s with
            | none => rw [hfn] at hv; exact absurd hv (by simp)
            | some p =>
              cases p with
              | func f => exact ⟨s, f, rfl, hcons, hown, hfn⟩
              | value w => rw [hfn] at hv; exact absurd hv (by simp)
          · rw [if_neg (by simp [hown])] at hv
            exact absurd hv (by simp)
      | num n => exact absurd hv (by simp [Executor.execute])
      | other => exact absurd hv (by simp [Executor.execute])
    · rintro ⟨s, f, hm, hs, hown, hfn⟩
      subst hm
      refine ⟨f ps, ?_⟩
      show (if (s != "constructor") && Executor.protoHasOwn L s then _ else _) = _
      rw [if_pos (by simp [hs, hown]), hfn]

/-- Witness for C4: on a concrete ledger, a declared callable method is
dispatched and returns its result. -/
theorem executor_execute_contract_witness :
    Executor.execute Fixtures.ledgerC (JsValue.str "foo") [] =
      Except.ok (JsValue.num 42) :=
  (executor_execute_contract Fixtures.ledgerC (JsValue.str "foo") []).1
    "foo" Fixtures.fnFoo rfl (by decide) (by decide) rfl

/-! ## C9 — setTime -/

/-- C9 counterexample: with wall-clock `now = 0` ms and `t = 1500` ms,
the code sets the adjustment to `1` second, while the claim's formula
`floor((t - now) / 1)` gives `1500`. -/
theorem setTime_divides_by_1000_cex :
    Blockchain.setTime 0 1500 = 1 ∧ Int.fdiv (1500 - 0) 1 = 1500 ∧
    (1 : Int) ≠ 1500 := by decide

/-- C9 (amended): `setTime(t)` sets the adjustment to
`floor((t - now) / 1000)` seconds, `t` and `now` in milliseconds —
characterised here by the floor bounds. -/
theorem setTime_floor (now timestamp : Int) :
    1000 * Blockchain.setTime now timestamp ≤ timestamp - now ∧
    timestamp - now < 1000 * Blockchain.setTime now timestamp + 1000 := by
  unfold Blockchain.setTime
  rw [Int.fdiv_eq_ediv _ (by decide)]
  have h1 := Int.ediv_add_emod (timestamp - now) 1000
  have h2 := Int.emod_nonneg (timestamp - now) (by decide : (1000 : Int) ≠ 0)
  have h3 := Int.emod_lt_of_pos (timestamp - now) (by decide : (0 : Int) < 1000)
  omega

/-! ## C5 — stop() -/

/-- C5 counterexample: called in state `started|paused`, `stop()` emits
`stop` but leaves the state at `started|paused`, not `stopped`. -/
theorem stop_paused_not_stopped_cex :
    (Blockchain.stop (Blockchain.Status.started + Blockchain.Status.paused)).1 ≠
      Blockchain.Status.stopped ∧
    (Blockchain.stop (Blockchain.Status.started + Blockchain.Status.paused)).1 =
      Blockchain.Status.started + Blockchain.Status.paused ∧
    (Blockchain.stop (Blockchain.Status.started + Blockchain.Status.paused)).2 = true := by
  decide

/-- C5 (amended): every call to `stop()` emits `stop`, and a second call
leaves the resulting state unchanged; `stop()` leaves the blockchain
`stopped` when called in state `starting` or exactly `started`, but
called in `started|paused` it leaves the state unchanged (the paused
bit defeats the strict equality check). -/
theorem stop_spec (s : Nat) :
    (Blockchain.stop s).2 = true ∧
    Blockchain.stop ((Blockchain.stop s).1) = ((Blockchain.stop s).1, true) ∧
    (s = Blockchain.Status.started ∨ s = Blockchain.Status.starting →
      (Blockchain.stop s).1 = Blockchain.Status.stopped) ∧
    (s = Blockchain.Status.started + Blockchain.Status.paused →
      (Blockchain.stop s).1 = s) := by
  have hstop : ∀ t : Nat, Blockchain.stop t = ((if t = 2 ∨ t = 1 then 4 else t), true) := by
    intro t
    unfold Blockchain.stop Blockchain.Status.started Blockchain.Status.starting
      Blockchain.Status.stopped
    by_cases h2 : t = 2
    · simp [h2]
    · by_cases h1 : t = 1
      · simp [h1, h2]
      · simp [h1, h2]
  by_cases h2 : s = 2
  · refine ⟨by simp [hstop], by simp [hstop, h2], fun _ => by simp [hstop, h2, Blockchain.Status.stopped],
      fun h => absurd (h2 ▸ h) (by decide)⟩
  · by_cases h1 : s = 1
    · refine ⟨by simp [hstop], by simp [hstop, h1], fun _ => by simp [hstop, h1, Blockchain.Status.stopped],
        fun h => absurd (h1 ▸ h) (by decide)⟩
    · have hs : Blockchain.stop s = (s, true) := by
        rw [hstop]
        simp [h1, h2]
      refine ⟨by simp [hs], by simp [hs], ?_, fun _ => by simp [hs]⟩
      rintro (h | h)
      · exact absurd h h1
      · exact absurd h h2

/-- Witness for C5: from state exactly `started`, `stop()` reaches
`stopped` and emits `stop`. -/
theorem stop_spec_witness :
    (Blockchain.stop Blockchain.Status.started).1 = Blockchain.Status.stopped ∧
    (Blockchain.stop Blockchain.Status.started).2 = true :=
  ⟨(stop_spec Blockchain.Status.started).2.2.1 (Or.inl rfl),
   (stop_spec Blockchain.Status.started).1⟩

/-! ## C7 — the instamine drain handler -/

/-- C7: on `drain`, if not paused the handler calls `mine(1)`; if
paused, the first drain creates the `waitingOnResume` promise and every
further drain while paused returns that same promise without creating a
new one; when `resume` fires the continuation clears the slot and calls
`mine(-1)`. -/
theorem drain_handler_spec (w : Option Nat) (freshId : Nat) :
    Blockchain.drainHandler false w freshId = (Blockchain.DrainAction.mineNow 1, w) ∧
    Blockchain.drainHandler true none freshId =
      (Blockchain.DrainAction.waitOnResume freshId, some freshId) ∧
    (∀ id, Blockchain.drainHandler true (some id) freshId =
      (Blockchain.DrainAction.waitOnResume id, some id)) ∧
    Blockchain.onResumeFired w = (Blockchain.DrainAction.mineNow (-1), none) :=
  ⟨rfl, rfl, fun _ => rfl, rfl⟩

/-! ## C6 — queueTransaction -/

/-- C6: when the pool accepts the transaction, `queueTransaction`
returns the hash immediately whenever the chain is paused or not in
instant-mining mode (and also in non-legacy instamine); in legacy
instamine mode while not paused it races the completion and failure
events: a completion returns the hash, a failure is thrown with the
hash attached as `.result` exactly when `vmErrorsOnRPCResponse` is
set. -/
theorem queueTransaction_spec (ctx : Blockchain.QueueCtx) (accepted : Bool)
    (txHash : Nat) (race : Blockchain.RaceOutcome) :
    (ctx.paused = true ∨ ctx.instamine = false →
      Blockchain.queueTransaction ctx (Except.ok accepted) txHash race =
        Except.ok (txHash, accepted)) ∧
    (ctx.paused = false → ctx.instamine = true → ctx.legacyInstamine = true →
      Blockchain.queueTransaction ctx (Except.ok accepted) txHash
          Blockchain.RaceOutcome.completed = Except.ok (txHash, accepted) ∧
      ∀ e, Blockchain.queueTransaction ctx (Except.ok accepted) txHash
          (Blockchain.RaceOutcome.failed e) =
        Except.error (Blockchain.QtError.vm
          { err := e
            result := if ctx.vmErrorsOnRPCResponse then some txHash else none })) ∧
    (ctx.paused = false → ctx.instamine = true → ctx.legacyInstamine = false →
      Blockchain.queueTransaction ctx (Except.ok accepted) txHash race =
        Except.ok (txHash, accepted)) := by
  refine ⟨?_, ?_, ?_⟩
  · rintro (hp | hi)
    · simp [Blockchain.queueTransaction, hp]
    · simp [Blockchain.queueTransaction, hi]
  · intro hp hi hl
    exact ⟨by simp [Blockchain.queueTransaction, hp, hi, hl],
           fun e => by simp [Blockchain.queueTransaction, hp, hi, hl]⟩
  · intro hp hi hl
    simp [Blockchain.queueTransaction, hp, hi, hl]

/-- Witness for C6: in legacy instamine mode, not paused, with
`vmErrorsOnRPCResponse` set, a raced failure is thrown with the hash
attached as `.result`. -/
theorem queueTransaction_spec_witness :
    Blockchain.queueTransaction Fixtures.ctxLegacy (Except.ok true) 99
        (Blockchain.RaceOutcome.failed "revert") =
      Except.error (Blockchain.QtError.vm { err := "revert", result := some 99 }) := by
  have h :=
    ((queueTransaction_spec Fixtures.ctxLegacy true 99
        (Blockchain.RaceOutcome.failed "revert")).2.1 rfl rfl rfl).2 "revert"
  simpa using h

/-! ## C8 — snapshot() -/

/-- C8: every call to `snapshot()` pushes a record containing the
latest header's hash, its state root and the current time adjustment
onto the snapshot stack, and returns the new snapshot's 1-based
ordinal (1 plus its index in the stack, i.e. the old length plus 1). -/
theorem snapshot_spec (h : BlockHeader → Nat) (st : ChainState) (b : Block)
    (hlatest : st.latest = some b) :
    Blockchain.snapshot h st =
      Except.ok (st.snapshots.length + 1,
        { st with snapshots := st.snapshots ++
            [{ hash := h b.header, stateRoot := b.header.stateRoot,
               timeAdjustment := st.timeAdjustment }] }) := by
  unfold Blockchain.snapshot
  rw [hlatest]
  simp

/-- Witness for C8: on a concrete single-block chain the snapshot gets
ordinal 1 and records hash 0, state root 7 and time adjustment 5. -/
theorem snapshot_spec_witness :
    Blockchain.snapshot Fixtures.hC Fixtures.stW =
      Except.ok (1, { Fixtures.stW with
        snapshots := [{ hash := 0, stateRoot := 7, timeAdjustment := 5 }] }) := by
  have h := snapshot_spec Fixtures.hC Fixtures.stW Fixtures.block0 rfl
  rw [h]
  rfl

/-! ## C1 — the committed block links to the previous latest block -/

/-- C1: in both copies of the miner `block` pipeline, the committed
block's header has `parentHash` equal to the hash of the previous
latest block's header and `number` equal to the previous block's
number plus 1. -/
theorem committed_block_links (h : BlockHeader → Nat) (env : Blockchain.CommitEnv)
    (st : ChainState) (d : Blockchain.MinerBlockData) (now : Int) (prev : Block)
    (hlatest : st.latest = some prev) :
    (∃ st2 ops, Blockchain.minerOnBlock h env st d = Except.ok (st2, ops) ∧
      ∃ b, st2.latest = some b ∧ b.header.parentHash = h prev.header ∧
        b.header.number = prev.header.number + 1) ∧
    (∃ st2 ops, Blockchain2.minerOnBlock h env now st d = Except.ok (st2, ops) ∧
      ∃ b, st2.latest = some b ∧ b.header.parentHash = h prev.header ∧
        b.header.number = prev.header.number + 1) := by
  unfold Blockchain.minerOnBlock Blockchain2.minerOnBlock
  rw [hlatest]
  constructor
  · exact ⟨_, _, rfl, Blockchain.minerBlockOf h env prev d, rfl, rfl, rfl⟩
  · exact ⟨_, _, rfl, Blockchain2.minerBlockOf h env now prev d, rfl, rfl, rfl⟩

/-- Witness for C1: committing concrete miner data on the concrete
single-block chain produces, in both copies, a block whose parent hash
is the previous header's hash and whose number is the previous number
plus one. -/
theorem committed_block_links_witness :
    (∃ st2 ops, Blockchain.minerOnBlock Fixtures.hC Fixtures.envC Fixtures.stW
        Fixtures.mbd = Except.ok (st2, ops) ∧
      ∃ b, st2.latest = some b ∧
        b.header.parentHash = Fixtures.hC Fixtures.block0.header ∧
        b.header.number = Fixtures.block0.header.number + 1) ∧
    (∃ st2 ops, Blockchain2.minerOnBlock Fixtures.hC Fixtures.envC 20 Fixtures.stW
        Fixtures.mbd = Except.ok (st2, ops) ∧
      ∃ b, st2.latest = some b ∧
        b.header.parentHash = Fixtures.hC Fixtures.block0.header ∧
        b.header.number = Fixtures.block0.header.number + 1) :=
  committed_block_links Fixtures.hC Fixtures.envC Fixtures.stW Fixtures.mbd 20
    Fixtures.block0 rfl

/-! ## C3 — revert error handling -/

/-- C3: `revert` throws `invalid snapshotId` when the raw ordinal is
null or undefined; it returns `false` without throwing when the
ordinal minus 1 is negative or when the snapshot stack has no element
at that index (and in both `false` cases the state is unchanged). -/
theorem revert_error_handling (h : BlockHeader → Nat) (st : ChainState) :
    Blockchain.revert h none st = Except.error "invalid snapshotId" ∧
    (∀ v : Int, v - 1 < 0 →
      Blockchain.revert h (some v) st =
        Except.ok { result := false, state := st, deletions := [] }) ∧
    (∀ v : Int, ¬ v - 1 < 0 → st.snapshots.drop (v - 1).toNat = [] →
      Blockchain.revert h (some v) st =
        Except.ok { result := false, state := st, deletions := [] }) := by
  refine ⟨rfl, ?_, ?_⟩
  · intro v hv
    show (if v - 1 < 0 then _ else _) = _
    rw [if_pos hv]
  · intro v hv hdrop
    show (if v - 1 < 0 then _ else _) = _
    rw [if_neg hv]
    have htake : st.snapshots.take (v - 1).toNat = st.snapshots :=
      List.take_of_length_le (by
        have := List.drop_eq_nil_iff.mp hdrop
        omega)
    simp only [hdrop, htake]

/-- Witness for C3: on a concrete chain with an empty snapshot stack,
a null ordinal throws, ordinal 0 resolves below zero and returns
`false`, and ordinal 5 hits an empty slot and returns `false`. -/
theorem revert_error_handling_witness :
    Blockchain.revert Fixtures.hC none Fixtures.stW =
      Except.error "invalid snapshotId" ∧
    Blockchain.revert Fixtures.hC (some 0) Fixtures.stW =
      Except.ok { result := false, state := Fixtures.stW, deletions := [] } ∧
    Blockchain.revert Fixtures.hC (some 5) Fixtures.stW =
      Except.ok { result := false, state := Fixtures.stW, deletions := [] } :=
  ⟨(revert_error_handling Fixtures.hC Fixtures.stW).1,
   (revert_error_handling Fixtures.hC Fixtures.stW).2.1 0 (by decide),
   (revert_error_handling Fixtures.hC Fixtures.stW).2.2 5 (by decide) (by decide)⟩

/-! ## C2 — revert success postcondition -/

/-- C2 counterexample: on a chain whose snapshot (ordinal 1, recorded
time adjustment 3) was taken at the still-current latest block, after
which the time adjustment changed to 5, `revert(1)` returns `true` but
leaves the time adjustment at 5 instead of restoring the snapshot's
recorded value 3. -/
theorem revert_time_not_restored_cex :
    revertView (Blockchain.revert Fixtures.hC (some 1) Fixtures.stCex) =
      some (true, 5) ∧
    Fixtures.stCex.snapshots =
      [{ hash := 0, stateRoot := 7, timeAdjustment := 3 }] ∧
    ((5 : Int) = 3 → False) := by decide

/-- C2 (amended): for every valid ordinal whose target snapshot exists
(and whose target block is in the block store), `revert` returns
`true`; the latest block then has the snapshot's hash — it is left in
place when its hash already equals the snapshot hash, and otherwise it
becomes the block fetched by the snapshot hash, in which case the time
adjustment is also restored to the snapshot's recorded value.  (When
the latest hash already equals the snapshot hash the code returns
early and does not restore the time adjustment.) -/
theorem revert_success (h : BlockHeader → Nat) (st : ChainState) (v : Int)
    (snap : Snapshot) (rest : List Snapshot) (cur target : Block)
    (hlatest : st.latest = some cur)
    (hv : 1 ≤ v)
    (hsnap : st.snapshots.drop (v - 1).toNat = snap :: rest)
    (htarget : lookupBlock (BlockKey.hash snap.hash) st.blocks = some target) :
    ∃ r, Blockchain.revert h (some v) st = Except.ok r ∧ r.result = true ∧
      ((h cur.header = snap.hash ∧ r.state.latest = some cur ∧
        r.state.timeAdjustment = st.timeAdjustment) ∨
       (h cur.header ≠ snap.hash ∧ r.state.latest = some target ∧
        r.state.timeAdjustment = snap.timeAdjustment)) := by
  by_cases hh : h cur.header = snap.hash
  · have hrev : Blockchain.revert h (some v) st =
        Except.ok { result := true,
                    state := { st with snapshots := st.snapshots.take (v - 1).toNat },
                    deletions := [] } := by
      show (if v - 1 < 0 then _ else _) = _
      rw [if_neg (by omega)]
      simp only [hsnap, hlatest]
      rw [if_pos hh]
    exact ⟨_, hrev, rfl, Or.inl ⟨hh, hlatest, rfl⟩⟩
  · have hrev : Blockchain.revert h (some v) st =
        Except.ok { result := true,
                    state := { st with
                      snapshots := st.snapshots.take (v - 1).toNat,
                      stateRoot := snap.stateRoot,
                      blocks := (Blockchain.revertLoop h snap.hash
                        (st.blocks.length + 1) cur st.blocks).1,
                      latest := lookupBlock (BlockKey.hash snap.hash) st.blocks,
                      timeAdjustment := snap.timeAdjustment },
                    deletions := (Blockchain.revertLoop h snap.hash
                      (st.blocks.length + 1) cur st.blocks).2 } := by
      show (if v - 1 < 0 then _ else _) = _
      rw [if_neg (by omega)]
      simp only [hsnap, hlatest]
      rw [if_neg hh]
    refine ⟨_, hrev, rfl, Or.inr ⟨hh, ?_, rfl⟩⟩
    exact htarget

/-- Witness for C2: on a concrete two-block chain with a snapshot taken
at the first block (hash 2, time adjustment 1) and the tip past it,
`revert(1)` returns `true`, sets `latest` to the snapshot's block and
restores the time adjustment. -/
theorem revert_success_witness :
    ∃ r, Blockchain.revert Fixtures.hC (some 1) Fixtures.stRevert = Except.ok r ∧
      r.result = true ∧ r.state.latest = some Fixtures.blockT ∧
      r.state.timeAdjustment = 1 := by
  obtain ⟨r, hr, hres, hcase⟩ :=
    revert_success Fixtures.hC Fixtures.stRevert 1
      { hash := 2, stateRoot := 9, timeAdjustment := 1 } []
      Fixtures.blockA Fixtures.blockT rfl (by decide) (by decide) (by decide)
  rcases hcase with ⟨habs, _, _⟩ | ⟨_, hlat, htime⟩
  · exact absurd habs (by decide)
  · exact ⟨r, hr, hres, hlat, htime⟩

/-! ## C10 — the two revert implementations are equivalent -/

/-- Helper: the two copies' `deleteBlockData` have definitionally equal
bodies. -/
theorem deleteBlockData_eq2 (h : BlockHeader → Nat) (b : Block) (s : BlockStore) :
    Blockchain2.deleteBlockData h b s = Blockchain.deleteBlockData h b s := rfl

/-- Helper: the two copies' revert walks agree at every fuel. -/
theorem revertLoop_eq2 (h : BlockHeader → Nat) (sh : Nat) :
    ∀ (fuel : Nat) (b : Block) (s : BlockStore),
      Blockchain2.revertLoop h sh fuel b s = Blockchain.revertLoop h sh fuel b s := by
  intro fuel
  induction fuel with
  | zero => intro b s; rfl
  | succ n ih =>
    intro b s
    simp only [Blockchain2.revertLoop, Blockchain.revertLoop, deleteBlockData_eq2, ih]

/-- C10: the revert operation (with its `#deleteBlockData` helper and
snapshot-stack manipulation) is behaviourally equivalent in the two
Blockchain implementations: on every snapshot ordinal and chain state
both return the same result (or throw the same error) and issue the
same sequence of block, transaction and receipt deletions. -/
theorem revert_equiv (h : BlockHeader → Nat) (snapshotId : Option Int)
    (st : ChainState) :
    Blockchain2.revert h snapshotId st = Blockchain.revert h snapshotId st ∧
    ∀ b s, Blockchain2.deleteBlockData h b s = Blockchain.deleteBlockData h b s := by
  refine ⟨?_, fun b s => rfl⟩
  have hfun : Blockchain2.revertLoop = Blockchain.revertLoop := by
    funext a b c d e
    exact revertLoop_eq2 a b c d e
  cases snapshotId with
  | none => rfl
  | some v =>
    unfold Blockchain2.revert Blockchain.revert
    rw [hfun]
